import Mathlib

/-!
Verification development for the nestjs-queue-retry-worker repository.

The definitions below are a shallow embedding of the queue/retry core:

* `src/src/queue/config/queue.config.ts` — backoff policy and constants;
* `src/src/api/queue/channels/delivery-channel.factory.ts` — channel registry;
* `src/src/api/queue/services/message-queue.service.ts` — queue service facade
  (addMessage, requeueFromDeadLetter, getJobById, removeJob) and the
  `MessagePayloadDto` validation rules enforced by the global `ValidationPipe`
  registered in `src/src/main.ts`;
* `src/src/api/queue/processors/message.processor.ts` — the message processor
  (process / scheduleRetry / moveToDeadLetter);
* the dead-letter processor (`DeadLetterProcessor.process`).

The backing BullMQ store is modelled by explicit state passing: each queue is a
list of stored jobs plus an auto-increment id counter (BullMQ assigns each queue
its own incrementing job ids starting from 1).  A processing run that returns
normally completes the job; a run that re-throws sends the job to `delayed`
while the BullMQ attempt budget lasts, and to `failed` afterwards.  Timestamps
(`Date`) are modelled as natural numbers supplied by the caller.
-/

namespace QueueRetry

/-- `MessagePayload` (message-payload.interface.ts).  `data` is an opaque
payload, modelled as a string; `metadata` is optional and opaque. -/
structure MessagePayload where
  id : String
  channel : String
  destination : String
  data : String
  metadata : Option String := none
deriving DecidableEq, Repr

/-- `JobData` (job-data.interface.ts).  `movedToDeadLetterAt` is not declared in
the interface but is added to the dead-letter record by the object spread in
`MessageProcessor.moveToDeadLetter`. -/
structure JobData where
  message : MessagePayload
  attemptCount : Nat
  lastError : Option String := none
  firstAttemptedAt : Option Nat := none
  movedToDeadLetterAt : Option Nat := none
deriving DecidableEq, Repr

/-- BullMQ job states relevant to this code base. -/
inductive JobState where
  | waiting
  | delayed
  | active
  | completed
  | failed
deriving DecidableEq, Repr

/-- One BullMQ job record: store-assigned `id`, the job name passed to `add`,
the application `data`, the BullMQ state, the number of processing runs
performed so far (`attemptsMade`), and the configured job options: the
`attempts` budget and the `backoff: {type: 'exponential', delay}` base in ms
(`optsBackoff`; 0 when the `add` call sets no backoff option). -/
structure StoredJob where
  id : Nat
  name : String
  data : JobData
  state : JobState
  attemptsMade : Nat := 0
  optsAttempts : Nat := 1
  optsBackoff : Nat := 0
deriving DecidableEq, Repr

/-- One BullMQ queue: its jobs and the auto-increment id counter. -/
structure BullQueue where
  jobs : List StoredJob
  nextId : Nat := 1
deriving DecidableEq, Repr

/-- `Queue.getJob(jobId)`: the job with the given id, if any. -/
def BullQueue.getJob (q : BullQueue) (jobId : Nat) : Option StoredJob :=
  q.jobs.find? (fun j => j.id == jobId)

/-- `Queue.add(name, data, opts)`: append a fresh job in `waiting` state with
the next auto-increment id, carrying the `attempts` and exponential-backoff
options passed to `add`. -/
def BullQueue.addJob (q : BullQueue) (name : String) (d : JobData)
    (optsAttempts : Nat) (optsBackoff : Nat) : StoredJob × BullQueue :=
  let j : StoredJob :=
    { id := q.nextId, name := name, data := d, state := JobState.waiting,
      attemptsMade := 0, optsAttempts := optsAttempts, optsBackoff := optsBackoff }
  (j, { jobs := q.jobs ++ [j], nextId := q.nextId + 1 })

/-- `job.remove()`: delete the job with the given id. -/
def BullQueue.removeJob (q : BullQueue) (jobId : Nat) : BullQueue :=
  { q with jobs := q.jobs.filter (fun j => j.id != jobId) }

/-- `job.updateData(data)`: replace the application data of the job. -/
def BullQueue.updateJobData (q : BullQueue) (jobId : Nat) (d : JobData) : BullQueue :=
  { q with jobs := q.jobs.map (fun j => if j.id == jobId then { j with data := d } else j) }

/-- End-of-run bookkeeping done by BullMQ: record one more processing run and
set the resulting state. -/
def BullQueue.finishJob (q : BullQueue) (jobId : Nat) (s : JobState) : BullQueue :=
  { q with
    jobs := q.jobs.map (fun j =>
      if j.id == jobId then { j with state := s, attemptsMade := j.attemptsMade + 1 } else j) }

/-- The two logical queues the service and processors operate on. -/
structure Store where
  messageQueue : BullQueue
  deadLetterQueue : BullQueue
deriving DecidableEq, Repr

/-- Both queues empty, id counters at 1. -/
def emptyStore : Store := { messageQueue := {jobs := []}, deadLetterQueue := {jobs := []} }

/-! ### Backoff policy (queue.config.ts) -/

/-- `QUEUE_CONFIG.MAX_RETRY_ATTEMPTS`. -/
def MAX_RETRY_ATTEMPTS : Nat := 5

/-- `QUEUE_CONFIG.BACKOFF.delay` (ms): the integer 1000 from queue.config.ts,
used both by `getBackoffDelay` and as the job-level backoff option that
`addMessage` passes to the store. -/
def BACKOFF_DELAY : Nat := 1000

/-- `QUEUE_CONFIG.QUEUE_NAME`. -/
def QUEUE_NAME : String := "message-delivery"

/-- `QUEUE_CONFIG.DEAD_LETTER_QUEUE_NAME`. -/
def DEAD_LETTER_QUEUE_NAME : String := "message-delivery-dead-letter"

/-- `getBackoffDelay` (queue.config.ts):
`QUEUE_CONFIG.BACKOFF.delay * Math.pow(2, attemptCount - 1)`.
JavaScript numbers at these magnitudes represent powers of two exactly, so the
function is modelled exactly over ℚ with an integer argument; a negative
argument yields a positive sub-unit value (JS `Math.pow` does not throw). -/
def getBackoffDelay (attemptCount : ℤ) : ℚ :=
  (BACKOFF_DELAY : ℚ) * (2 : ℚ) ^ (attemptCount - 1)

/-! ### Channel registry (delivery-channel.factory.ts) -/

/-- The string values of the `DeliveryChannel` enum, as matched by
`DeliveryChannelFactory.getChannel` (the `src/queue` copy of the factory
switches on the literals 'http', 'email', 'internal'; the `src/api/queue` copy
switches on the enum members carrying the same values). -/
def knownChannels : List String := ["http", "email", "internal"]

/-- `DeliveryChannelFactory.getChannel`: resolve a channel kind to its handler
(identified here by its kind string), or throw
`Unknown delivery channel type: ...`. -/
def getChannel (channelType : String) : Except String String :=
  if channelType = "http" then Except.ok "http"
  else if channelType = "email" then Except.ok "email"
  else if channelType = "internal" then Except.ok "internal"
  else Except.error ("Unknown delivery channel type: " ++ channelType)

/-- `DeliveryChannelFactory.deliver`: resolve, then invoke the handler.  The
handlers perform outbound I/O; their behaviour is a parameter
`io : MessagePayload → Option String` (`none` = delivered, `some e` = the
handler threw an error with message `e`).  `some e` is also the result when the
channel kind cannot be resolved. -/
def factoryDeliver (io : MessagePayload → Option String) (m : MessagePayload) :
    Option String :=
  match getChannel m.channel with
  | Except.error e => some e
  | Except.ok _ => io m

/-! ### Queue service (message-queue.service.ts) -/

/-- The errors thrown by the service layer, and the controllers' mappings:
`invalidMessage` is the global `ValidationPipe` rejecting
`MessagePayloadDto`; `notRequeueable` and `notFound` are the two `throw new
Error(...)` sites in `requeueFromDeadLetter`; `notFound` also stands for the
404 returned by `AdminController.getJobById`. -/
inductive QueueError where
  | invalidMessage (detail : String)
  | notRequeueable (jobId : Nat) (state : JobState)
  | notFound (jobId : Nat)
deriving DecidableEq, Repr

/-- The primitive store operations performed by a service call, in order. -/
inductive StoreEvent where
  | enqueuedMain (jobId : Nat)
  | removedMain (jobId : Nat)
  | removedDeadLetter (jobId : Nat)
deriving DecidableEq, Repr

/-- `MessageQueueService.addMessage`: wrap the message in fresh `JobData`
(`attemptCount: 1`, `firstAttemptedAt: new Date()`) and `add` it to the MAIN
queue with `attempts: MAX_RETRY_ATTEMPTS` (plus backoff/retention options that
do not change the stored record). -/
def addMessage (now : Nat) (m : MessagePayload) (st : Store) : StoredJob × Store :=
  let jobData : JobData :=
    { message := m, attemptCount := 1, firstAttemptedAt := some now }
  let (j, q) := st.messageQueue.addJob "deliver" jobData MAX_RETRY_ATTEMPTS BACKOFF_DELAY
  (j, { st with messageQueue := q })

/-- The `MessagePayloadDto` validation enforced by the global `ValidationPipe`
before `QueueController.addMessage` runs: `id`, `destination` and `data`
non-empty, `channel` a member of the `DeliveryChannel` enum. -/
def validateMessagePayload (m : MessagePayload) : Bool :=
  m.id != "" && m.destination != "" && m.data != "" && knownChannels.contains m.channel

/-- The submission path: DTO validation, then `addMessage`.  On a validation
failure the request is rejected synchronously and the store is untouched. -/
def submit (now : Nat) (m : MessagePayload) (st : Store) :
    Except QueueError StoredJob × Store :=
  if validateMessagePayload m then
    let (j, st') := addMessage now m st
    (Except.ok j, st')
  else
    (Except.error (QueueError.invalidMessage m.channel), st)

/-- `MessageQueueService.getJobById`: looks the id up in the MAIN queue only. -/
def getJobById (jobId : Nat) (st : Store) : Option StoredJob :=
  st.messageQueue.getJob jobId

/-- `AdminController.getJobById`: 404 `Job not found` when
`MessageQueueService.getJobById` yields nothing. -/
def adminGetJob (jobId : Nat) (st : Store) : Except QueueError StoredJob :=
  match getJobById jobId st with
  | some j => Except.ok j
  | none => Except.error (QueueError.notFound jobId)

/-- `MessageQueueService.removeJob`: fetch from MAIN; remove if present,
silently return otherwise (never throws). -/
def removeJob (jobId : Nat) (st : Store) : Except QueueError Store :=
  match st.messageQueue.getJob jobId with
  | some _ => Except.ok { st with messageQueue := st.messageQueue.removeJob jobId }
  | none => Except.ok st

/-- `MessageQueueService.requeueFromDeadLetter`: resolve the job from the
dead-letter queue first; failing that, from MAIN provided its state is
`failed` (otherwise throw `can only requeue failed jobs`); if neither, throw
`not found`.  On success, `addMessage(job.data.message)` enqueues a fresh MAIN
job and only then is the original record removed (`job.remove()`); the returned
event list records that order. -/
def requeueFromDeadLetter (now : Nat) (jobId : Nat) (st : Store) :
    Except QueueError (Store × List StoreEvent) :=
  match st.deadLetterQueue.getJob jobId with
  | some job =>
    let r := addMessage now job.data.message st
    Except.ok
      ({ r.2 with deadLetterQueue := r.2.deadLetterQueue.removeJob jobId },
       [StoreEvent.enqueuedMain r.1.id, StoreEvent.removedDeadLetter jobId])
  | none =>
    match st.messageQueue.getJob jobId with
    | some job =>
      if job.state ≠ JobState.failed then
        Except.error (QueueError.notRequeueable jobId job.state)
      else
        let r := addMessage now job.data.message st
        Except.ok
          ({ r.2 with messageQueue := r.2.messageQueue.removeJob jobId },
           [StoreEvent.enqueuedMain r.1.id, StoreEvent.removedMain jobId])
    | none => Except.error (QueueError.notFound jobId)

/-! ### Message processor (message.processor.ts) -/

/-- The branch taken by the `catch` block of `MessageProcessor.process`, plus
the success path.  `scheduleRetry` carries the values computed by the
`scheduleRetry` method (`nextAttempt`, the backoff delay it schedules) and the
error re-thrown afterwards. -/
inductive ProcessAction where
  | success
  | moveToDeadLetter (errorMessage : String)
  | scheduleRetry (errorMessage : String) (nextAttempt : Nat) (delay : ℚ) (rethrown : String)
deriving DecidableEq, Repr

/-- `error.message || 'Unknown error'`. -/
def jsErrorMessage (e : String) : String :=
  if e = "" then "Unknown error" else e

/-- The control flow of `MessageProcessor.process` as a function of the
delivery result (`none` = delivered, `some e` = the delivery threw `e`) and the
job data: success returns; a failure at `attemptCount >= MAX_RETRY_ATTEMPTS`
moves to the dead-letter queue and returns; any other failure schedules a retry
with `nextAttempt = attemptCount + 1` and delay `getBackoffDelay nextAttempt`,
then re-throws. -/
def processDecision (deliverResult : Option String) (d : JobData) : ProcessAction :=
  match deliverResult with
  | none => ProcessAction.success
  | some e =>
    if MAX_RETRY_ATTEMPTS ≤ d.attemptCount then
      ProcessAction.moveToDeadLetter (jsErrorMessage e)
    else
      ProcessAction.scheduleRetry (jsErrorMessage e) (d.attemptCount + 1)
        (getBackoffDelay (d.attemptCount + 1)) e

/-- The `job.updateData` payload built by `MessageProcessor.scheduleRetry`. -/
def scheduleRetryData (now : Nat) (d : JobData) (errorMessage : String) : JobData :=
  { d with
    attemptCount := d.attemptCount + 1
    lastError := some errorMessage
    firstAttemptedAt := some (d.firstAttemptedAt.getD now) }

/-- The dead-letter record built by `MessageProcessor.moveToDeadLetter`:
the job data spread with `lastError` and `movedToDeadLetterAt`. -/
def deadLetterData (now : Nat) (d : JobData) (errorMessage : String) : JobData :=
  { d with lastError := some errorMessage, movedToDeadLetterAt := some now }

/-- BullMQ's built-in `exponential` backoff strategy: when a processing run
re-throws and a retry remains in the `attempts` budget, the store parks the
job DELAYED for `backoff.delay * 2^(attemptsMade - 1)` ms, where
`attemptsMade` counts the run that just failed. -/
def bullBackoffDelay (optsBackoff : Nat) (attemptsMade : Nat) : ℚ :=
  (optsBackoff : ℚ) * (2 : ℚ) ^ (attemptsMade - 1)

/-- The observable result of one processing run: the new store, the error
re-thrown by `process` (if any), the backoff delay that `scheduleRetry`
computed via `getBackoffDelay` — a value it only writes to the log ("BullMQ
will automatically retry based on job configuration") — and the retry delay
the store actually applies, per the job's `backoff` option and
`bullBackoffDelay` (empty when no retry is scheduled). -/
structure AttemptOutcome where
  store : Store
  raised : Option String
  loggedDelays : List ℚ
  scheduledDelays : List ℚ

/-- One run of `MessageProcessor.process` on MAIN job `jobId`, with channel
I/O behaviour `io`, together with the surrounding BullMQ bookkeeping: a normal
return completes the job; a re-throw parks it as `delayed` — for the
`bullBackoffDelay` given by the job's backoff option, reported in
`scheduledDelays` — while runs remain in the job's `attempts` budget, and as
`failed` otherwise.  `scheduleRetry`'s own `getBackoffDelay` figure is only
logged and is reported separately in `loggedDelays`.  The dead-letter branch
adds the record to the dead-letter queue (`JobType.DEAD_LETTER`, no retries,
no backoff option) and does not remove the MAIN job. -/
def runAttempt (io : MessagePayload → Option String) (now : Nat) (jobId : Nat)
    (st : Store) : AttemptOutcome :=
  match st.messageQueue.getJob jobId with
  | none => { store := st, raised := none, loggedDelays := [], scheduledDelays := [] }
  | some job =>
    match processDecision (factoryDeliver io job.data.message) job.data with
    | ProcessAction.success =>
      { store := { st with messageQueue := st.messageQueue.finishJob jobId JobState.completed },
        raised := none, loggedDelays := [], scheduledDelays := [] }
    | ProcessAction.moveToDeadLetter errorMessage =>
      let (_, dlq) :=
        st.deadLetterQueue.addJob "dead_letter" (deadLetterData now job.data errorMessage) 1 0
      { store :=
          { messageQueue := st.messageQueue.finishJob jobId JobState.completed,
            deadLetterQueue := dlq },
        raised := none, loggedDelays := [], scheduledDelays := [] }
    | ProcessAction.scheduleRetry errorMessage _ d e =>
      let mq := st.messageQueue.updateJobData jobId (scheduleRetryData now job.data errorMessage)
      let mq := mq.finishJob jobId
        (if job.attemptsMade + 1 < job.optsAttempts then JobState.delayed else JobState.failed)
      { store := { st with messageQueue := mq }, raised := some e,
        loggedDelays := [d],
        scheduledDelays :=
          if job.attemptsMade + 1 < job.optsAttempts
          then [bullBackoffDelay job.optsBackoff (job.attemptsMade + 1)]
          else [] }

/-- `DeadLetterProcessor.process`: logs the entry and sends admin alerts
(alert failures are caught), then returns normally, so BullMQ completes the
dead-letter record; the record itself is not modified or removed. -/
def runDeadLetterAttempt (jobId : Nat) (st : Store) : Store :=
  { st with deadLetterQueue := st.deadLetterQueue.finishJob jobId JobState.completed }

/-- The result of a sequence of processing runs: the final store, the delays
computed and logged by `scheduleRetry`, and the delays actually applied by the
store's backoff option, each first run first. -/
structure FailTrace where
  store : Store
  logged : List ℚ
  scheduled : List ℚ

/-- `n` consecutive processing runs on MAIN job `jobId`, collecting both delay
sequences along the way. -/
def iterateFailures (io : MessagePayload → Option String) (now jobId : Nat) :
    Nat → Store → FailTrace
  | 0, st => { store := st, logged := [], scheduled := [] }
  | Nat.succ n, st =>
    let r := runAttempt io now jobId st
    let rest := iterateFailures io now jobId n r.store
    { store := rest.store,
      logged := r.loggedDelays ++ rest.logged,
      scheduled := r.scheduledDelays ++ rest.scheduled }

/-! ### Reachable store states -/

/-- One transition of the system: a submission, a processing run on either
queue, a successful manual requeue, or a `removeJob` call. -/
inductive Step : Store → Store → Prop where
  | addMsg (now : Nat) (m : MessagePayload) (st : Store) :
      Step st (addMessage now m st).2
  | attempt (io : MessagePayload → Option String) (now jobId : Nat) (st : Store) :
      Step st (runAttempt io now jobId st).store
  | deadLetterRun (jobId : Nat) (st : Store) :
      Step st (runDeadLetterAttempt jobId st)
  | requeue (now jobId : Nat) (st st' : Store) (ev : List StoreEvent) :
      requeueFromDeadLetter now jobId st = Except.ok (st', ev) → Step st st'
  | remove (jobId : Nat) (st st' : Store) :
      removeJob jobId st = Except.ok st' → Step st st'

/-- The store states reachable from the empty store through the operations the
code performs. -/
inductive Reachable : Store → Prop where
  | init : Reachable emptyStore
  | step {st st' : Store} : Reachable st → Step st st' → Reachable st'

/-- Store integrity: every job id is below the queue's id counter, and ids are
unique within a queue (BullMQ auto-increment ids). -/
def queueWF (q : BullQueue) : Prop :=
  (∀ j ∈ q.jobs, j.id < q.nextId) ∧ (q.jobs.map StoredJob.id).Nodup

/-- `queueWF` for both queues. -/
def storeWF (st : Store) : Prop :=
  queueWF st.messageQueue ∧ queueWF st.deadLetterQueue

/-- Every job record in the queue carries `1 ≤ attempt_count ≤ MAX_ATTEMPTS`. -/
def queueBounds (q : BullQueue) : Prop :=
  ∀ j ∈ q.jobs, 1 ≤ j.data.attemptCount ∧ j.data.attemptCount ≤ MAX_RETRY_ATTEMPTS

/-- The attempt-count bound from the spec, for both queues. -/
def attemptCountBounds (st : Store) : Prop :=
  queueBounds st.messageQueue ∧ queueBounds st.deadLetterQueue

/-- A record with the same id in the second list never has a smaller attempt
count than its counterpart in the first list. -/
def monoList (l l' : List StoredJob) : Prop :=
  ∀ j ∈ l, ∀ j' ∈ l', j.id = j'.id → j.data.attemptCount ≤ j'.data.attemptCount

/-- Per-id monotonicity of `attempt_count` across a transition: a job record
that persists (same queue, same id) never sees its attempt count decrease. -/
def attemptCountMono (st st' : Store) : Prop :=
  monoList st.messageQueue.jobs st'.messageQueue.jobs ∧
  monoList st.deadLetterQueue.jobs st'.deadLetterQueue.jobs

/-- Combined store invariant: well-formed ids and bounded attempt counts. -/
def storeInv (st : Store) : Prop := storeWF st ∧ attemptCountBounds st

/-! ### Concrete fixtures used by witnesses and counterexamples -/

/-- A well-formed HTTP message. -/
def msgA : MessagePayload :=
  { id := "m1", channel := "http", destination := "https://example.com/webhook", data := "d" }

/-- A message whose channel kind is not registered. -/
def msgUnknown : MessagePayload :=
  { id := "m3", channel := "sms", destination := "x", data := "d" }

/-- Channel I/O that always throws `boom`. -/
def ioBoom : MessagePayload → Option String := fun _ => some "boom"

/-- Channel I/O that always delivers. -/
def ioNone : MessagePayload → Option String := fun _ => none

/-- `msgA` submitted to the empty store: MAIN job 1, attempt count 1. -/
def st0 : Store := (addMessage 0 msgA emptyStore).2

/-- After one failing run: attempt count 2, retry scheduled. -/
def st1 : Store := (runAttempt ioBoom 1 1 st0).store

/-- After two failing runs. -/
def st2 : Store := (runAttempt ioBoom 2 1 st1).store

/-- After three failing runs. -/
def st3 : Store := (runAttempt ioBoom 3 1 st2).store

/-- After four failing runs: attempt count 5 = MAX. -/
def st4 : Store := (runAttempt ioBoom 4 1 st3).store

/-- After the fifth (terminal) failing run: dead-letter record added. -/
def st5 : Store := (runAttempt ioBoom 5 1 st4).store

/-- `st5` after `removeJob 1`: job id 1 exists only in the dead-letter queue. -/
def st6 : Store := ((removeJob 1 st5).toOption).getD st5

/-- `msgUnknown` submitted directly (`MessageQueueService.addMessage` does not
validate): MAIN job 1 with an unresolvable channel. -/
def stU : Store := (addMessage 0 msgUnknown emptyStore).2

/-- `st5` after a successful `requeueFromDeadLetter` of job 1: a fresh MAIN
job 2 exists, the dead-letter record is gone, and the original (completed)
MAIN job 1 is still present. -/
def stR : Store := ((requeueFromDeadLetter 10 1 st5).toOption.getD (st5, [])).1

/-- Decidable equality for `Except`, used to state results of the service
calls concretely. -/
instance instDecEqExcept {ε α : Type} [DecidableEq ε] [DecidableEq α] :
    DecidableEq (Except ε α)
  | Except.ok a, Except.ok b =>
    if h : a = b then Decidable.isTrue (by rw [h]) else Decidable.isFalse (by simp [h])
  | Except.ok _, Except.error _ => Decidable.isFalse (by simp)
  | Except.error _, Except.ok _ => Decidable.isFalse (by simp)
  | Except.error e, Except.error f =>
    if h : e = f then Decidable.isTrue (by rw [h]) else Decidable.isFalse (by simp [h])

/-- `jDead`: the dead-letter record produced by the `st0 … st5` trace. -/
def jDead : StoredJob :=
  { id := 1, name := "dead_letter",
    data := { message := msgA, attemptCount := 5, lastError := some "boom",
              firstAttemptedAt := some 0, movedToDeadLetterAt := some 5 },
    state := JobState.waiting, attemptsMade := 0, optsAttempts := 1 }

/-- `j0`: MAIN job 1 as first enqueued in `st0`. -/
def j0 : StoredJob :=
  { id := 1, name := "deliver",
    data := { message := msgA, attemptCount := 1, firstAttemptedAt := some 0 },
    state := JobState.waiting, attemptsMade := 0, optsAttempts := 5,
    optsBackoff := 1000 }

/-- `j4`: MAIN job 1 as stored in `st4` (four failed runs, attempt count 5). -/
def j4 : StoredJob :=
  { id := 1, name := "deliver",
    data := { message := msgA, attemptCount := 5, lastError := some "boom",
              firstAttemptedAt := some 0 },
    state := JobState.delayed, attemptsMade := 4, optsAttempts := 5,
    optsBackoff := 1000 }

/-- `jU`: MAIN job 1 as stored in `stU` (unknown channel, attempt count 1). -/
def jU : StoredJob :=
  { id := 1, name := "deliver",
    data := { message := msgUnknown, attemptCount := 1, firstAttemptedAt := some 0 },
    state := JobState.waiting, attemptsMade := 0, optsAttempts := 5,
    optsBackoff := 1000 }

/-! ## Helper lemmas about the queue model -/

theorem getJob_mem_and_id {q : BullQueue} {jobId : Nat} {j : StoredJob}
    (h : q.getJob jobId = some j) : j ∈ q.jobs ∧ j.id = jobId := by
  unfold BullQueue.getJob at h
  refine ⟨List.mem_of_find?_eq_some h, ?_⟩
  have := List.find?_some h
  simpa using this

theorem find?_id_map {l : List StoredJob} {f : StoredJob → StoredJob}
    (hf : ∀ j, (f j).id = j.id) (jobId : Nat) :
    (l.map f).find? (fun j => j.id == jobId) =
      (l.find? (fun j => j.id == jobId)).map f := by
  induction l with
  | nil => rfl
  | cons a l ih =>
    by_cases ha : (a.id == jobId) = true
    · simp [List.find?, hf, ha]
    · simp only [List.map_cons, List.find?, hf, ha]
      simpa [Bool.not_eq_true] using ih

theorem getJob_finishJob_self {q : BullQueue} {jobId : Nat} {j : StoredJob}
    (h : q.getJob jobId = some j) (s : JobState) :
    (q.finishJob jobId s).getJob jobId =
      some { j with state := s, attemptsMade := j.attemptsMade + 1 } := by
  have hid : (j.id == jobId) = true := by
    simpa using (getJob_mem_and_id h).2
  unfold BullQueue.finishJob BullQueue.getJob
  rw [find?_id_map (fun j' => by by_cases hj' : (j'.id == jobId) = true <;> simp [hj'])]
  unfold BullQueue.getJob at h
  have hideq : j.id = jobId := by simpa using hid
  rw [h]
  simp [hideq]

theorem getJob_updateJobData_self {q : BullQueue} {jobId : Nat} {j : StoredJob}
    (h : q.getJob jobId = some j) (d : JobData) :
    (q.updateJobData jobId d).getJob jobId = some { j with data := d } := by
  have hid : (j.id == jobId) = true := by
    simpa using (getJob_mem_and_id h).2
  unfold BullQueue.updateJobData BullQueue.getJob
  rw [find?_id_map (fun j' => by by_cases hj' : (j'.id == jobId) = true <;> simp [hj'])]
  unfold BullQueue.getJob at h
  have hideq : j.id = jobId := by simpa using hid
  rw [h]
  simp [hideq]

theorem getJob_addJob_fresh {q : BullQueue}
    (hfresh : ∀ j ∈ q.jobs, j.id < q.nextId) (name : String) (d : JobData)
    (atts : Nat) (backoff : Nat) :
    (q.addJob name d atts backoff).2.getJob q.nextId =
      some (q.addJob name d atts backoff).1 := by
  unfold BullQueue.addJob BullQueue.getJob
  rw [List.find?_append]
  have hnone : q.jobs.find? (fun j => j.id == q.nextId) = none := by
    rw [List.find?_eq_none]
    intro j hj
    simpa using Nat.ne_of_lt (hfresh j hj)
  rw [hnone]
  simp

theorem getJob_removeJob_self (q : BullQueue) (jobId : Nat) :
    (q.removeJob jobId).getJob jobId = none := by
  unfold BullQueue.removeJob BullQueue.getJob
  rw [List.find?_eq_none]
  intro j hj
  have := (List.mem_filter.mp hj).2
  simpa using this

theorem processDecision_fail_max {d : JobData} {e : String}
    (hk : MAX_RETRY_ATTEMPTS ≤ d.attemptCount) :
    processDecision (some e) d = ProcessAction.moveToDeadLetter (jsErrorMessage e) := by
  simp [processDecision, hk]

theorem processDecision_fail_retry {d : JobData} {e : String}
    (hk : d.attemptCount < MAX_RETRY_ATTEMPTS) :
    processDecision (some e) d =
      ProcessAction.scheduleRetry (jsErrorMessage e) (d.attemptCount + 1)
        (getBackoffDelay (d.attemptCount + 1)) e := by
  simp [processDecision, show ¬ MAX_RETRY_ATTEMPTS ≤ d.attemptCount from by omega]

theorem runAttempt_max_fail
    {io : MessagePayload → Option String} {now jobId : Nat} {st : Store}
    {j : StoredJob} {e : String}
    (hj : st.messageQueue.getJob jobId = some j)
    (hfail : factoryDeliver io j.data.message = some e)
    (hk : MAX_RETRY_ATTEMPTS ≤ j.data.attemptCount) :
    runAttempt io now jobId st =
      { store := { messageQueue := st.messageQueue.finishJob jobId JobState.completed,
                   deadLetterQueue := (st.deadLetterQueue.addJob "dead_letter"
                     (deadLetterData now j.data (jsErrorMessage e)) 1 0).2 },
        raised := none, loggedDelays := [], scheduledDelays := [] } := by
  simp only [runAttempt, hj, hfail, processDecision_fail_max hk]

theorem runAttempt_retry_fail
    {io : MessagePayload → Option String} {now jobId : Nat} {st : Store}
    {j : StoredJob} {e : String}
    (hj : st.messageQueue.getJob jobId = some j)
    (hfail : factoryDeliver io j.data.message = some e)
    (hk : j.data.attemptCount < MAX_RETRY_ATTEMPTS) :
    runAttempt io now jobId st =
      { store := { st with messageQueue :=
          (BullQueue.finishJob
            (st.messageQueue.updateJobData jobId (scheduleRetryData now j.data (jsErrorMessage e)))
            jobId
            (if j.attemptsMade + 1 < j.optsAttempts then JobState.delayed else JobState.failed)) },
        raised := some e,
        loggedDelays := [getBackoffDelay (j.data.attemptCount + 1)],
        scheduledDelays :=
          if j.attemptsMade + 1 < j.optsAttempts
          then [bullBackoffDelay j.optsBackoff (j.attemptsMade + 1)]
          else [] } := by
  simp only [runAttempt, hj, hfail, processDecision_fail_retry hk]

theorem factoryDeliver_unknown (io : MessagePayload → Option String)
    (m : MessagePayload) (h : m.channel ∉ knownChannels) :
    factoryDeliver io m = some ("Unknown delivery channel type: " ++ m.channel) := by
  have h1 : ¬ m.channel = "http" := fun hh => h (by simp [knownChannels, hh])
  have h2 : ¬ m.channel = "email" := fun hh => h (by simp [knownChannels, hh])
  have h3 : ¬ m.channel = "internal" := fun hh => h (by simp [knownChannels, hh])
  simp [factoryDeliver, getChannel, h1, h2, h3]

theorem getJob_update_finish {q : BullQueue} {jobId : Nat} {j : StoredJob}
    (h : q.getJob jobId = some j) (d : JobData) (s : JobState) :
    ((q.updateJobData jobId d).finishJob jobId s).getJob jobId =
      some { j with data := d, state := s, attemptsMade := j.attemptsMade + 1 } :=
  getJob_finishJob_self (getJob_updateJobData_self h d) s

/-! ## Claims -/

/-- **C3** (confirmed): the backoff policy is the pure function
`delay(n) = 1000·2^(n-1)` ms for every integer `n ≥ 1`, giving 1000, 2000,
4000, 8000, 16000 for n = 1..5; `delay(0) = 500`; and for every negative `n`
it returns a value (a positive rational) rather than raising. -/
theorem getBackoffDelay_spec :
    (∀ n : ℤ, 1 ≤ n → getBackoffDelay n = 1000 * (2 : ℚ) ^ (n - 1).toNat) ∧
    getBackoffDelay 1 = 1000 ∧ getBackoffDelay 2 = 2000 ∧
    getBackoffDelay 3 = 4000 ∧ getBackoffDelay 4 = 8000 ∧
    getBackoffDelay 5 = 16000 ∧ getBackoffDelay 0 = 500 ∧
    (∀ n : ℤ, n < 0 → 0 < getBackoffDelay n) := by
  refine ⟨?_, ?_, ?_, ?_, ?_, ?_, ?_, ?_⟩
  · intro n hn
    unfold getBackoffDelay BACKOFF_DELAY
    rw [← zpow_natCast, Int.toNat_of_nonneg (by omega)]
    norm_num
  · norm_num [getBackoffDelay, BACKOFF_DELAY]
  · norm_num [getBackoffDelay, BACKOFF_DELAY]
  · norm_num [getBackoffDelay, BACKOFF_DELAY]
  · norm_num [getBackoffDelay, BACKOFF_DELAY]
  · norm_num [getBackoffDelay, BACKOFF_DELAY]
  · norm_num [getBackoffDelay, BACKOFF_DELAY]
  · intro n _
    unfold getBackoffDelay BACKOFF_DELAY
    positivity

/-- Witness for `getBackoffDelay_spec` at n = 6 and n = -2. -/
theorem getBackoffDelay_spec_witness :
    getBackoffDelay 6 = 1000 * (2 : ℚ) ^ ((6 : ℤ) - 1).toNat ∧
    0 < getBackoffDelay (-2) :=
  ⟨getBackoffDelay_spec.1 6 (by decide),
   getBackoffDelay_spec.2.2.2.2.2.2.2 (-2) (by decide)⟩

/-- **C7** (confirmed): a submission whose channel kind is not one of
http/email/internal is rejected synchronously by the DTO validation with an
`InvalidMessage` error, and no job is created in any queue (the store is
returned unchanged). -/
theorem submit_unknown_channel_rejected (now : Nat) (m : MessagePayload)
    (st : Store) (h : m.channel ∉ knownChannels) :
    submit now m st = (Except.error (QueueError.invalidMessage m.channel), st) := by
  have hc : knownChannels.contains m.channel = false := by
    simpa using h
  unfold submit validateMessagePayload
  rw [hc]
  simp

/-- Witness for `submit_unknown_channel_rejected`: channel `sms`. -/
theorem submit_unknown_channel_rejected_witness :
    submit 0 msgUnknown emptyStore =
      (Except.error (QueueError.invalidMessage "sms"), emptyStore) :=
  submit_unknown_channel_rejected 0 msgUnknown emptyStore (by decide)

/-- **C10** (confirmed): `removeJob` with an id not present in the MAIN queue
is a silent no-op: it returns without error and the store (both queues) is
unchanged. -/
theorem removeJob_absent_noop (jobId : Nat) (st : Store)
    (h : st.messageQueue.getJob jobId = none) :
    removeJob jobId st = Except.ok st := by
  unfold removeJob
  rw [h]

/-- Witness for `removeJob_absent_noop`: job id 1 is present only in the
dead-letter queue of `st6`, and `removeJob` leaves `st6` untouched. -/
theorem removeJob_absent_noop_witness :
    removeJob 1 st6 = Except.ok st6 :=
  removeJob_absent_noop 1 st6 (by decide)

/-- **C9** (amended): `getJobById` consults only the MAIN queue, so the admin
lookup fails with NotFound exactly when the id is absent from MAIN — an id
present only in the dead-letter queue also yields NotFound. -/
theorem getJobById_main_only (jobId : Nat) (st : Store) :
    (adminGetJob jobId st = Except.error (QueueError.notFound jobId) ↔
      st.messageQueue.getJob jobId = none) ∧
    (∀ j, st.deadLetterQueue.getJob jobId = some j →
      st.messageQueue.getJob jobId = none →
      adminGetJob jobId st = Except.error (QueueError.notFound jobId)) := by
  constructor
  · unfold adminGetJob getJobById
    cases h : st.messageQueue.getJob jobId <;> simp [h]
  · intro j _ hmain
    unfold adminGetJob getJobById
    rw [hmain]

/-- Witness for `getJobById_main_only`: in `st6` job 1 lives only in the
dead-letter queue and the admin lookup reports NotFound. -/
theorem getJobById_main_only_witness :
    adminGetJob 1 st6 = Except.error (QueueError.notFound 1) :=
  (getJobById_main_only 1 st6).2 jDead (by decide) (by decide)

/-- **C9** counterexample: in the reachable state `st6` the id 1 is present in
the dead-letter queue and absent from MAIN, yet `get` reports NotFound instead
of returning the dead-letter record — refuting the claim that NotFound occurs
exactly when the id is in neither queue. -/
theorem getJobById_deadletter_only_notfound :
    st6.messageQueue.getJob 1 = none ∧
    st6.deadLetterQueue.getJob 1 = some jDead ∧
    adminGetJob 1 st6 = Except.error (QueueError.notFound 1) := by decide

/-- **C1** (amended): when a delivery attempt fails with stored attempt count
`k ≥ MAX_ATTEMPTS`, the processor appends a dead-letter record carrying
`last_error` = the failure's error message, `attempt_count` unchanged (thus
MAX_ATTEMPTS), and `moved_to_dead_letter_at` set, and does not re-raise — but
the MAIN record is not removed: the job run finishes normally, so the job stays
in MAIN as COMPLETED (subject to retention). -/
theorem moveToDeadLetter_on_max (io : MessagePayload → Option String)
    (now jobId : Nat) (st : Store) (j : StoredJob) (e : String)
    (hj : st.messageQueue.getJob jobId = some j)
    (hfail : factoryDeliver io j.data.message = some e)
    (he : e ≠ "")
    (hk : MAX_RETRY_ATTEMPTS ≤ j.data.attemptCount) :
    (runAttempt io now jobId st).raised = none ∧
    (runAttempt io now jobId st).store.deadLetterQueue.jobs =
      st.deadLetterQueue.jobs ++
        [{ id := st.deadLetterQueue.nextId, name := "dead_letter",
           data := { message := j.data.message, attemptCount := j.data.attemptCount,
                     lastError := some e,
                     firstAttemptedAt := j.data.firstAttemptedAt,
                     movedToDeadLetterAt := some now },
           state := JobState.waiting, attemptsMade := 0, optsAttempts := 1 }] ∧
    (runAttempt io now jobId st).store.messageQueue.getJob jobId =
      some { j with state := JobState.completed, attemptsMade := j.attemptsMade + 1 } := by
  rw [runAttempt_max_fail hj hfail hk]
  refine ⟨rfl, ?_, ?_⟩
  · simp [BullQueue.addJob, deadLetterData, jsErrorMessage, he]
  · exact getJob_finishJob_self hj JobState.completed

/-- Witness for `moveToDeadLetter_on_max`: the fifth failing run on `st4`. -/
theorem moveToDeadLetter_on_max_witness :
    (runAttempt ioBoom 5 1 st4).raised = none ∧
    (runAttempt ioBoom 5 1 st4).store.deadLetterQueue.jobs =
      st4.deadLetterQueue.jobs ++
        [{ id := st4.deadLetterQueue.nextId, name := "dead_letter",
           data := { message := j4.data.message, attemptCount := j4.data.attemptCount,
                     lastError := some "boom",
                     firstAttemptedAt := j4.data.firstAttemptedAt,
                     movedToDeadLetterAt := some 5 },
           state := JobState.waiting, attemptsMade := 0, optsAttempts := 1 }] ∧
    (runAttempt ioBoom 5 1 st4).store.messageQueue.getJob 1 =
      some { j4 with state := JobState.completed, attemptsMade := j4.attemptsMade + 1 } :=
  moveToDeadLetter_on_max ioBoom 5 1 st4 j4 "boom"
    (by decide) (by decide) (by decide) (by decide)

/-- **C1** counterexample: in the trace `st0 … st5` (submission followed by
five failing runs), the fifth failure happens at attempt count 5 = MAX and the
record is dead-lettered without re-raising — yet MAIN still holds job 1
afterwards, refuting the claim's final conjunct that the store no longer holds
the job in MAIN. -/
theorem deadLettered_job_still_in_main :
    ((st4.messageQueue.getJob 1).map (fun j => j.data.attemptCount) =
      some MAX_RETRY_ATTEMPTS) ∧
    (runAttempt ioBoom 5 1 st4).raised = none ∧
    (runAttempt ioBoom 5 1 st4).store.deadLetterQueue.jobs.length = 1 ∧
    (runAttempt ioBoom 5 1 st4).store.messageQueue.getJob 1 ≠ none := by decide

/-- **C4** (amended): a delivery-time `UnknownChannel` failure is not treated
as terminal: like any other failure, at attempt count `k < MAX` the processor
schedules a retry (attempt count `k+1`, error propagated, dead-letter queue
untouched) and only at `k ≥ MAX` moves the job to the dead-letter queue, with
`attempt_count` equal to the (unchanged) current attempt count — MAX, not 1. -/
theorem unknownChannel_not_terminal (io : MessagePayload → Option String)
    (now jobId : Nat) (st : Store) (j : StoredJob)
    (hj : st.messageQueue.getJob jobId = some j)
    (hch : j.data.message.channel ∉ knownChannels) :
    factoryDeliver io j.data.message =
      some ("Unknown delivery channel type: " ++ j.data.message.channel) ∧
    (j.data.attemptCount < MAX_RETRY_ATTEMPTS →
      (runAttempt io now jobId st).store.deadLetterQueue = st.deadLetterQueue ∧
      (runAttempt io now jobId st).raised =
        some ("Unknown delivery channel type: " ++ j.data.message.channel) ∧
      ((runAttempt io now jobId st).store.messageQueue.getJob jobId).map
          (fun x => x.data.attemptCount) = some (j.data.attemptCount + 1)) ∧
    (MAX_RETRY_ATTEMPTS ≤ j.data.attemptCount →
      (runAttempt io now jobId st).raised = none ∧
      ((runAttempt io now jobId st).store.deadLetterQueue.jobs.map
          (fun x => x.data.attemptCount)) =
        st.deadLetterQueue.jobs.map (fun x => x.data.attemptCount) ++
          [j.data.attemptCount]) := by
  have hfail := factoryDeliver_unknown io j.data.message hch
  refine ⟨hfail, ?_, ?_⟩
  · intro hk
    rw [runAttempt_retry_fail hj hfail hk]
    refine ⟨rfl, rfl, ?_⟩
    rw [getJob_update_finish hj]
    simp [scheduleRetryData]
  · intro hk
    rw [runAttempt_max_fail hj hfail hk]
    refine ⟨rfl, ?_⟩
    simp [BullQueue.addJob, deadLetterData]

/-- Witness for `unknownChannel_not_terminal`: job `jU` in `stU`. -/
theorem unknownChannel_not_terminal_witness :
    factoryDeliver ioNone jU.data.message =
      some ("Unknown delivery channel type: " ++ jU.data.message.channel) ∧
    (jU.data.attemptCount < MAX_RETRY_ATTEMPTS →
      (runAttempt ioNone 1 1 stU).store.deadLetterQueue = stU.deadLetterQueue ∧
      (runAttempt ioNone 1 1 stU).raised =
        some ("Unknown delivery channel type: " ++ jU.data.message.channel) ∧
      ((runAttempt ioNone 1 1 stU).store.messageQueue.getJob 1).map
          (fun x => x.data.attemptCount) = some (jU.data.attemptCount + 1)) ∧
    (MAX_RETRY_ATTEMPTS ≤ jU.data.attemptCount →
      (runAttempt ioNone 1 1 stU).raised = none ∧
      ((runAttempt ioNone 1 1 stU).store.deadLetterQueue.jobs.map
          (fun x => x.data.attemptCount)) =
        stU.deadLetterQueue.jobs.map (fun x => x.data.attemptCount) ++
          [jU.data.attemptCount]) :=
  unknownChannel_not_terminal ioNone 1 1 stU jU (by decide) (by decide)

/-- **C4** counterexample: the first delivery of a job whose channel `sms`
cannot be resolved does not dead-letter it: the dead-letter queue stays empty,
the error is re-raised, and a retry is recorded (attempt count 2) — refuting
the claim that `UnknownChannel` is terminal and dead-letters on first
occurrence with attempt count 1. -/
theorem unknownChannel_first_failure_retried :
    ((stU.messageQueue.getJob 1).map (fun j => j.data.attemptCount) = some 1) ∧
    (runAttempt ioNone 1 1 stU).store.deadLetterQueue.jobs = [] ∧
    (runAttempt ioNone 1 1 stU).raised = some "Unknown delivery channel type: sms" ∧
    ((runAttempt ioNone 1 1 stU).store.messageQueue.getJob 1).map
      (fun j => j.data.attemptCount) = some 2 := by decide

theorem getBackoffDelay_nat (m : Nat) (h : 1 ≤ m) :
    getBackoffDelay m = 1000 * (2 : ℚ) ^ (m - 1) := by
  unfold getBackoffDelay BACKOFF_DELAY
  rw [show ((m : ℤ) - 1) = ((m - 1 : ℕ) : ℤ) by omega, zpow_natCast]
  norm_num

theorem iterateFailures_delays (io : MessagePayload → Option String) (e : String)
    (now jobId : Nat) :
    ∀ (n : Nat) (st : Store) (j : StoredJob),
      st.messageQueue.getJob jobId = some j →
      factoryDeliver io j.data.message = some e →
      j.data.attemptCount + n ≤ MAX_RETRY_ATTEMPTS →
      j.attemptsMade + n < j.optsAttempts →
      (iterateFailures io now jobId n st).logged =
        (List.range n).map
          (fun i : ℕ => getBackoffDelay (((j.data.attemptCount + i + 1 : ℕ) : ℤ))) ∧
      (iterateFailures io now jobId n st).scheduled =
        (List.range n).map
          (fun i : ℕ => bullBackoffDelay j.optsBackoff (j.attemptsMade + i + 1)) := by
  intro n
  induction n with
  | zero =>
    intro st j _ _ _ _
    simp [iterateFailures]
  | succ n ih =>
    intro st j hj hfail hle hbud
    have hk : j.data.attemptCount < MAX_RETRY_ATTEMPTS := by omega
    have hdel : j.attemptsMade + 1 < j.optsAttempts := by omega
    have hstepL : (iterateFailures io now jobId (n + 1) st).logged =
        (runAttempt io now jobId st).loggedDelays ++
          (iterateFailures io now jobId n (runAttempt io now jobId st).store).logged := rfl
    have hstepS : (iterateFailures io now jobId (n + 1) st).scheduled =
        (runAttempt io now jobId st).scheduledDelays ++
          (iterateFailures io now jobId n (runAttempt io now jobId st).store).scheduled := rfl
    have hrun := @runAttempt_retry_fail io now jobId st j e hj hfail hk
    have hj' := getJob_update_finish hj (scheduleRetryData now j.data (jsErrorMessage e))
      (if j.attemptsMade + 1 < j.optsAttempts then JobState.delayed else JobState.failed)
    obtain ⟨ihL, ihS⟩ := ih (runAttempt io now jobId st).store
      { j with
          data := scheduleRetryData now j.data (jsErrorMessage e),
          state := if j.attemptsMade + 1 < j.optsAttempts then JobState.delayed else JobState.failed,
          attemptsMade := j.attemptsMade + 1 }
      (by rw [hrun]; exact hj')
      (by simpa [scheduleRetryData] using hfail)
      (show j.data.attemptCount + 1 + n ≤ MAX_RETRY_ATTEMPTS by omega)
      (show j.attemptsMade + 1 + n < j.optsAttempts by omega)
    refine ⟨?_, ?_⟩
    · rw [hstepL, ihL, hrun]
      rw [List.range_succ_eq_map, List.map_cons, List.map_map]
      simp only [scheduleRetryData]
      rw [List.singleton_append]
      congr 1
      norm_num
      intro a _
      congr 1
      ring
    · have hsch : (runAttempt io now jobId st).scheduledDelays =
          [bullBackoffDelay j.optsBackoff (j.attemptsMade + 1)] := by
        rw [hrun]
        simp [hdel]
      rw [hstepS, ihS, hsch]
      rw [List.range_succ_eq_map, List.map_cons, List.map_map]
      simp only [scheduleRetryData]
      rw [List.singleton_append]
      congr 1
      norm_num
      intro a _
      congr 1
      omega

/-- **C2** (amended): when a delivery attempt fails at stored attempt count
`k < MAX_ATTEMPTS`, the processor computes the next retry delay
`delay(k+1) = BASE·2^k` — but only writes it to the log — records
`attempt_count = k+1` and `last_error`, and re-raises; the retry delay the
store actually applies comes from the job's BullMQ exponential backoff option
(base 1000 ms, set by `addMessage`), so the delay scheduled after the m-th
failure is `BASE·2^(m−1)` ms (1000, 2000, 4000, 8000 ms for m = 1..4), one
halving below the logged figures `BASE·2^m`. -/
theorem scheduleRetry_records_and_schedules (io : MessagePayload → Option String)
    (now jobId : Nat) (st : Store) (j : StoredJob) (e : String)
    (hj : st.messageQueue.getJob jobId = some j)
    (hfail : factoryDeliver io j.data.message = some e)
    (he : e ≠ "") :
    (j.data.attemptCount < MAX_RETRY_ATTEMPTS →
      (runAttempt io now jobId st).raised = some e ∧
      (runAttempt io now jobId st).loggedDelays =
        [getBackoffDelay (j.data.attemptCount + 1)] ∧
      (j.attemptsMade + 1 < j.optsAttempts →
        (runAttempt io now jobId st).scheduledDelays =
          [bullBackoffDelay j.optsBackoff (j.attemptsMade + 1)]) ∧
      ((runAttempt io now jobId st).store.messageQueue.getJob jobId).map
          StoredJob.data =
        some { j.data with
                 attemptCount := j.data.attemptCount + 1,
                 lastError := some e,
                 firstAttemptedAt := some (j.data.firstAttemptedAt.getD now) }) ∧
    (∀ n : Nat, j.data.attemptCount = 1 → j.attemptsMade = 0 →
      j.optsAttempts = MAX_RETRY_ATTEMPTS → j.optsBackoff = BACKOFF_DELAY →
      n + 1 ≤ MAX_RETRY_ATTEMPTS →
      (iterateFailures io now jobId n st).logged =
        (List.range n).map (fun i : ℕ => (1000 : ℚ) * 2 ^ (i + 1)) ∧
      (iterateFailures io now jobId n st).scheduled =
        (List.range n).map (fun i : ℕ => (1000 : ℚ) * 2 ^ i)) := by
  constructor
  · intro hk
    rw [runAttempt_retry_fail hj hfail hk]
    refine ⟨rfl, rfl, ?_, ?_⟩
    · intro hdel
      simp [hdel]
    · rw [getJob_update_finish hj]
      simp [scheduleRetryData, jsErrorMessage, he]
  · intro n hc ham hopt hbo hn
    obtain ⟨hL, hS⟩ := iterateFailures_delays io e now jobId n st j hj hfail
      (by omega) (by omega)
    constructor
    · rw [hL]
      refine List.map_congr_left ?_
      intro i _
      rw [hc, getBackoffDelay_nat (1 + i + 1) (by omega)]
      have h1 : 1 + i + 1 - 1 = i + 1 := by omega
      rw [h1]
    · rw [hS]
      refine List.map_congr_left ?_
      intro i _
      rw [ham, hbo]
      unfold bullBackoffDelay BACKOFF_DELAY
      have h1 : 0 + i + 1 - 1 = i := by omega
      rw [h1]
      norm_num

/-- Witness for `scheduleRetry_records_and_schedules`: the first failing run
on `st0` and the four-failure trace with both concrete delay sequences. -/
theorem scheduleRetry_records_and_schedules_witness :
    (runAttempt ioBoom 1 1 st0).raised = some "boom" ∧
    (runAttempt ioBoom 1 1 st0).loggedDelays =
      [getBackoffDelay (j0.data.attemptCount + 1)] ∧
    (runAttempt ioBoom 1 1 st0).scheduledDelays =
      [bullBackoffDelay j0.optsBackoff (j0.attemptsMade + 1)] ∧
    ((runAttempt ioBoom 1 1 st0).store.messageQueue.getJob 1).map
        StoredJob.data =
      some { j0.data with
               attemptCount := j0.data.attemptCount + 1,
               lastError := some "boom",
               firstAttemptedAt := some (j0.data.firstAttemptedAt.getD 1) } ∧
    (iterateFailures ioBoom 1 1 4 st0).logged =
      (List.range 4).map (fun i : ℕ => (1000 : ℚ) * 2 ^ (i + 1)) ∧
    (iterateFailures ioBoom 1 1 4 st0).scheduled =
      (List.range 4).map (fun i : ℕ => (1000 : ℚ) * 2 ^ i) := by
  have h := scheduleRetry_records_and_schedules ioBoom 1 1 st0 j0 "boom"
    (by decide) (by decide) (by decide)
  have h1 := h.1 (by decide)
  have h2 := h.2 4 (by decide) (by decide) (by decide) (by decide) (by decide)
  exact ⟨h1.1, h1.2.1, h1.2.2.1 (by decide), h1.2.2.2, h2.1, h2.2⟩

/-- **C2** counterexample: after the first failure of the fresh job in `st0`
the claim requires a scheduled delay of `BASE·2^1 = 2000` ms, but the store
schedules the BullMQ exponential delay `1000·2^0 = 1000` ms — the 2000 ms
figure is computed and logged by `scheduleRetry`, never used for scheduling. -/
theorem first_retry_scheduled_1000 :
    (runAttempt ioBoom 1 1 st0).scheduledDelays = [1000] ∧
    (runAttempt ioBoom 1 1 st0).loggedDelays = [2000] ∧
    (1000 : ℚ) ≠ 2000 := by
  have h := @runAttempt_retry_fail ioBoom 1 1 st0 j0 "boom"
    (by decide) (by decide) (by decide)
  rw [h]
  refine ⟨?_, ?_, by norm_num⟩
  · show (if j0.attemptsMade + 1 < j0.optsAttempts
        then [bullBackoffDelay j0.optsBackoff (j0.attemptsMade + 1)] else []) = [1000]
    rw [if_pos (by decide)]
    norm_num [bullBackoffDelay, j0]
  · show [getBackoffDelay (j0.data.attemptCount + 1)] = [2000]
    norm_num [getBackoffDelay, BACKOFF_DELAY, j0]

theorem requeue_eq_dlq_some {now jobId : Nat} {st : Store} {j : StoredJob}
    (hd : st.deadLetterQueue.getJob jobId = some j) :
    requeueFromDeadLetter now jobId st =
      Except.ok
        ({ (addMessage now j.data.message st).2 with
            deadLetterQueue :=
              (addMessage now j.data.message st).2.deadLetterQueue.removeJob jobId },
         [StoreEvent.enqueuedMain (addMessage now j.data.message st).1.id,
          StoreEvent.removedDeadLetter jobId]) := by
  simp only [requeueFromDeadLetter, hd]

theorem requeue_eq_main_notfailed {now jobId : Nat} {st : Store} {j : StoredJob}
    (hd : st.deadLetterQueue.getJob jobId = none)
    (hm : st.messageQueue.getJob jobId = some j)
    (hs : j.state ≠ JobState.failed) :
    requeueFromDeadLetter now jobId st =
      Except.error (QueueError.notRequeueable jobId j.state) := by
  simp only [requeueFromDeadLetter, hd, hm]
  rw [if_pos hs]

theorem requeue_eq_main_failed {now jobId : Nat} {st : Store} {j : StoredJob}
    (hd : st.deadLetterQueue.getJob jobId = none)
    (hm : st.messageQueue.getJob jobId = some j)
    (hs : j.state = JobState.failed) :
    requeueFromDeadLetter now jobId st =
      Except.ok
        ({ (addMessage now j.data.message st).2 with
            messageQueue :=
              (addMessage now j.data.message st).2.messageQueue.removeJob jobId },
         [StoreEvent.enqueuedMain (addMessage now j.data.message st).1.id,
          StoreEvent.removedMain jobId]) := by
  simp only [requeueFromDeadLetter, hd, hm]
  rw [if_neg (by simp [hs])]

theorem requeue_eq_absent {now jobId : Nat} {st : Store}
    (hd : st.deadLetterQueue.getJob jobId = none)
    (hm : st.messageQueue.getJob jobId = none) :
    requeueFromDeadLetter now jobId st =
      Except.error (QueueError.notFound jobId) := by
  simp only [requeueFromDeadLetter, hd, hm]

theorem requeue_ok_dlq_absent {now jobId : Nat} {st st' : Store}
    {ev : List StoreEvent}
    (h : requeueFromDeadLetter now jobId st = Except.ok (st', ev)) :
    st'.deadLetterQueue.getJob jobId = none := by
  cases hd : st.deadLetterQueue.getJob jobId with
  | some j =>
    rw [requeue_eq_dlq_some hd] at h
    injection h with h2
    injection h2 with h3 h4
    rw [← h3]
    exact getJob_removeJob_self _ _
  | none =>
    cases hm : st.messageQueue.getJob jobId with
    | some j =>
      by_cases hs : j.state = JobState.failed
      · rw [requeue_eq_main_failed hd hm hs] at h
        injection h with h2
        injection h2 with h3 h4
        rw [← h3]
        exact hd
      · rw [requeue_eq_main_notfailed hd hm hs] at h
        exact absurd h (by simp)
    | none =>
      rw [requeue_eq_absent hd hm] at h
      exact absurd h (by simp)

/-- **C5** (confirmed): requeue of a job present in the dead-letter queue
creates a new MAIN job with attempt count 1, last_error cleared, and the same
message, and removes the dead-letter record; the store operations are
enqueue-then-remove, in that order (witnessed by the event trace). -/
theorem requeue_from_dead_letter (now jobId : Nat) (st : Store) (j : StoredJob)
    (hfresh : ∀ jm ∈ st.messageQueue.jobs, jm.id < st.messageQueue.nextId)
    (hj : st.deadLetterQueue.getJob jobId = some j) :
    ∃ st' j',
      requeueFromDeadLetter now jobId st =
        Except.ok (st',
          [StoreEvent.enqueuedMain j'.id, StoreEvent.removedDeadLetter jobId]) ∧
      st'.messageQueue.getJob j'.id = some j' ∧
      j'.data.attemptCount = 1 ∧
      j'.data.lastError = none ∧
      j'.data.message = j.data.message ∧
      st'.deadLetterQueue.getJob jobId = none := by
  refine ⟨_, (addMessage now j.data.message st).1,
    requeue_eq_dlq_some hj, ?_, rfl, rfl, rfl, getJob_removeJob_self _ _⟩
  exact getJob_addJob_fresh hfresh "deliver"
    { message := j.data.message, attemptCount := 1, firstAttemptedAt := some now }
    MAX_RETRY_ATTEMPTS BACKOFF_DELAY

/-- Witness for `requeue_from_dead_letter`: requeue of the dead-letter record
of `st5`. -/
theorem requeue_from_dead_letter_witness :
    ∃ st' j',
      requeueFromDeadLetter 10 1 st5 =
        Except.ok (st',
          [StoreEvent.enqueuedMain j'.id, StoreEvent.removedDeadLetter 1]) ∧
      st'.messageQueue.getJob j'.id = some j' ∧
      j'.data.attemptCount = 1 ∧
      j'.data.lastError = none ∧
      j'.data.message = jDead.data.message ∧
      st'.deadLetterQueue.getJob 1 = none :=
  requeue_from_dead_letter 10 1 st5 jDead (by decide) (by decide)

/-- **C6** (amended): requeue resolves from the dead-letter queue first; if
absent there, from MAIN only when that job's state is FAILED, otherwise it
fails with NotRequeueable(state); if the id is in neither place it fails with
NotFound.  A second requeue after a successful one yields NotFound only when
the id does not also name a MAIN job; when a MAIN job shares the id, the
MAIN-queue rules apply instead. -/
theorem requeue_resolution_order (now jobId : Nat) (st : Store) :
    (∀ j, st.deadLetterQueue.getJob jobId = some j →
      ∃ st' ev, requeueFromDeadLetter now jobId st = Except.ok (st', ev)) ∧
    (∀ j, st.deadLetterQueue.getJob jobId = none →
      st.messageQueue.getJob jobId = some j → j.state ≠ JobState.failed →
      requeueFromDeadLetter now jobId st =
        Except.error (QueueError.notRequeueable jobId j.state)) ∧
    (∀ j, st.deadLetterQueue.getJob jobId = none →
      st.messageQueue.getJob jobId = some j → j.state = JobState.failed →
      ∃ st' ev, requeueFromDeadLetter now jobId st = Except.ok (st', ev)) ∧
    (st.deadLetterQueue.getJob jobId = none →
      st.messageQueue.getJob jobId = none →
      requeueFromDeadLetter now jobId st =
        Except.error (QueueError.notFound jobId)) ∧
    (∀ now2 st' ev, requeueFromDeadLetter now jobId st = Except.ok (st', ev) →
      st'.messageQueue.getJob jobId = none →
      requeueFromDeadLetter now2 jobId st' =
        Except.error (QueueError.notFound jobId)) := by
  refine ⟨?_, ?_, ?_, ?_, ?_⟩
  · intro j hd
    exact ⟨_, _, requeue_eq_dlq_some hd⟩
  · intro j hd hm hs
    exact requeue_eq_main_notfailed hd hm hs
  · intro j hd hm hs
    exact ⟨_, _, requeue_eq_main_failed hd hm hs⟩
  · intro hd hm
    exact requeue_eq_absent hd hm
  · intro now2 st' ev hok hmain
    exact requeue_eq_absent (requeue_ok_dlq_absent hok) hmain

/-- Witness for `requeue_resolution_order`: requeue on `st5` succeeds (id 1 in
the dead-letter queue) and requeue on the empty store yields NotFound. -/
theorem requeue_resolution_order_witness :
    (∃ st' ev, requeueFromDeadLetter 10 1 st5 = Except.ok (st', ev)) ∧
    requeueFromDeadLetter 0 1 emptyStore =
      Except.error (QueueError.notFound 1) := by
  have h5 := requeue_resolution_order 10 1 st5
  have h0 := requeue_resolution_order 0 1 emptyStore
  exact ⟨h5.1 jDead (by decide), h0.2.2.2.1 (by decide) (by decide)⟩

/-- **C6** counterexample: in the trace `st0 … st5`, requeue of job id 1
succeeds (it is resolved from the dead-letter queue); the second call with the
same id yields NotRequeueable(completed) — the id still names the original,
now completed, MAIN job — not NotFound as the claim asserts. -/
theorem second_requeue_not_notfound :
    requeueFromDeadLetter 10 1 st5 =
      Except.ok (stR, [StoreEvent.enqueuedMain 2, StoreEvent.removedDeadLetter 1]) ∧
    requeueFromDeadLetter 11 1 stR =
      Except.error (QueueError.notRequeueable 1 JobState.completed) := by decide


theorem mem_id_unique {l : List StoredJob} (hnd : (l.map StoredJob.id).Nodup)
    {j j' : StoredJob} (hj : j ∈ l) (hj' : j' ∈ l) (hid : j.id = j'.id) : j = j' :=
  List.inj_on_of_nodup_map hnd hj hj' hid

theorem queueWF_addJob {q : BullQueue} (h : queueWF q) (name : String)
    (d : JobData) (atts : Nat) (backoff : Nat) :
    queueWF (q.addJob name d atts backoff).2 := by
  obtain ⟨hfresh, hnd⟩ := h
  constructor
  · intro j hj
    rcases List.mem_append.mp hj with hj | hj
    · exact Nat.lt_succ_of_lt (hfresh j hj)
    · rw [List.mem_singleton.mp hj]
      exact Nat.lt_succ_self _
  · show ((q.jobs ++ [(q.addJob name d atts backoff).1]).map StoredJob.id).Nodup
    rw [List.map_append, List.nodup_append]
    refine ⟨hnd, List.nodup_singleton _, ?_⟩
    intro x hx hx'
    rcases List.mem_map.mp hx with ⟨j, hj, rfl⟩
    have hlt := hfresh j hj
    have : j.id = q.nextId := by simpa [BullQueue.addJob] using hx'
    omega

theorem queueWF_map {q : BullQueue} (h : queueWF q) {f : StoredJob → StoredJob}
    (hf : ∀ j, (f j).id = j.id) : queueWF { q with jobs := q.jobs.map f } := by
  obtain ⟨hfresh, hnd⟩ := h
  constructor
  · intro j hj
    rcases List.mem_map.mp hj with ⟨j0, hj0, rfl⟩
    rw [hf]
    exact hfresh j0 hj0
  · show ((q.jobs.map f).map StoredJob.id).Nodup
    rw [List.map_map]
    have : q.jobs.map (StoredJob.id ∘ f) = q.jobs.map StoredJob.id :=
      List.map_congr_left (fun j _ => hf j)
    rw [this]
    exact hnd

theorem queueWF_filter {q : BullQueue} (h : queueWF q) (p : StoredJob → Bool) :
    queueWF { q with jobs := q.jobs.filter p } := by
  obtain ⟨hfresh, hnd⟩ := h
  refine ⟨fun j hj => hfresh j (List.mem_of_mem_filter hj), ?_⟩
  show ((q.jobs.filter p).map StoredJob.id).Nodup
  exact List.Nodup.sublist ((List.filter_sublist q.jobs).map StoredJob.id) hnd

theorem queueBounds_addJob {q : BullQueue} (h : queueBounds q) {d : JobData}
    (hd : 1 ≤ d.attemptCount ∧ d.attemptCount ≤ MAX_RETRY_ATTEMPTS)
    (name : String) (atts : Nat) (backoff : Nat) :
    queueBounds (q.addJob name d atts backoff).2 := by
  intro j hj
  rcases List.mem_append.mp hj with hj | hj
  · exact h j hj
  · rw [List.mem_singleton.mp hj]
    exact hd

theorem queueBounds_map {q : BullQueue} {f : StoredJob → StoredJob}
    (hok : ∀ j ∈ q.jobs, 1 ≤ (f j).data.attemptCount ∧
      (f j).data.attemptCount ≤ MAX_RETRY_ATTEMPTS) :
    queueBounds { q with jobs := q.jobs.map f } := by
  intro j hj
  rcases List.mem_map.mp hj with ⟨j0, hj0, rfl⟩
  exact hok j0 hj0

theorem queueBounds_filter {q : BullQueue} (h : queueBounds q)
    (p : StoredJob → Bool) : queueBounds { q with jobs := q.jobs.filter p } :=
  fun j hj => h j (List.mem_of_mem_filter hj)

theorem monoList_of_subset {l l' : List StoredJob}
    (hnd : (l.map StoredJob.id).Nodup) (hsub : ∀ j' ∈ l', j' ∈ l) :
    monoList l l' := by
  intro j hj j' hj' hid
  rw [mem_id_unique hnd hj (hsub j' hj') hid]

theorem monoList_refl {l : List StoredJob} (hnd : (l.map StoredJob.id).Nodup) :
    monoList l l :=
  monoList_of_subset hnd (fun _ h => h)

theorem monoList_shrink {l l0 l' : List StoredJob} (h : monoList l l0)
    (hsub : ∀ j' ∈ l', j' ∈ l0) : monoList l l' :=
  fun j hj j' hj' hid => h j hj j' (hsub j' hj') hid

theorem monoList_append_fresh {l : List StoredJob} {new : StoredJob} {n : Nat}
    (hfresh : ∀ j ∈ l, j.id < n) (hnew : new.id = n)
    (hnd : (l.map StoredJob.id).Nodup) : monoList l (l ++ [new]) := by
  intro j hj j' hj' hid
  rcases List.mem_append.mp hj' with h' | h'
  · rw [mem_id_unique hnd hj h' hid]
  · rw [List.mem_singleton.mp h'] at hid
    have := hfresh j hj
    omega

theorem monoList_map {l : List StoredJob} {f : StoredJob → StoredJob}
    (hf : ∀ j, (f j).id = j.id)
    (hcount : ∀ j ∈ l, j.data.attemptCount ≤ (f j).data.attemptCount)
    (hnd : (l.map StoredJob.id).Nodup) : monoList l (l.map f) := by
  intro j hj j' hj' hid
  rcases List.mem_map.mp hj' with ⟨j0, hj0, rfl⟩
  have : j = j0 := mem_id_unique hnd hj hj0 (by rw [hid, hf j0])
  rw [this]
  exact hcount j0 hj0


theorem runAttempt_none {io : MessagePayload → Option String} {now jobId : Nat}
    {st : Store} (hj : st.messageQueue.getJob jobId = none) :
    runAttempt io now jobId st =
      { store := st, raised := none, loggedDelays := [], scheduledDelays := [] } := by
  simp only [runAttempt, hj]

theorem runAttempt_success {io : MessagePayload → Option String} {now jobId : Nat}
    {st : Store} {j : StoredJob} (hj : st.messageQueue.getJob jobId = some j)
    (hfd : factoryDeliver io j.data.message = none) :
    runAttempt io now jobId st =
      { store := { st with
          messageQueue := st.messageQueue.finishJob jobId JobState.completed },
        raised := none, loggedDelays := [], scheduledDelays := [] } := by
  simp only [runAttempt, hj, hfd, processDecision]

theorem inv_addMessage {st : Store} (h : storeInv st) (now : Nat)
    (m : MessagePayload) :
    storeInv (addMessage now m st).2 ∧ attemptCountMono st (addMessage now m st).2 := by
  obtain ⟨⟨hwfm, hwfd⟩, hbm, hbd⟩ := h
  exact ⟨⟨⟨queueWF_addJob hwfm _ _ _ _, hwfd⟩,
      queueBounds_addJob hbm (by simp [MAX_RETRY_ATTEMPTS]) _ _ _, hbd⟩,
    monoList_append_fresh hwfm.1 rfl hwfm.2, monoList_refl hwfd.2⟩

theorem inv_deadLetterRun {st : Store} (h : storeInv st) (jobId : Nat) :
    storeInv (runDeadLetterAttempt jobId st) ∧
      attemptCountMono st (runDeadLetterAttempt jobId st) := by
  obtain ⟨⟨hwfm, hwfd⟩, hbm, hbd⟩ := h
  have hfid : ∀ j : StoredJob,
      (if (j.id == jobId) = true
        then { j with state := JobState.completed, attemptsMade := j.attemptsMade + 1 }
        else j).id = j.id := by
    intro j
    by_cases hh : (j.id == jobId) = true <;> simp [hh]
  have hcnt : ∀ j ∈ st.deadLetterQueue.jobs,
      1 ≤ (if (j.id == jobId) = true
        then { j with state := JobState.completed, attemptsMade := j.attemptsMade + 1 }
        else j).data.attemptCount ∧
      (if (j.id == jobId) = true
        then { j with state := JobState.completed, attemptsMade := j.attemptsMade + 1 }
        else j).data.attemptCount ≤ MAX_RETRY_ATTEMPTS := by
    intro j hj
    by_cases hh : (j.id == jobId) = true <;> simp [hh] <;> exact hbd j hj
  have hmono : ∀ j ∈ st.deadLetterQueue.jobs,
      j.data.attemptCount ≤
        (if (j.id == jobId) = true
          then { j with state := JobState.completed, attemptsMade := j.attemptsMade + 1 }
          else j).data.attemptCount := by
    intro j hj
    by_cases hh : (j.id == jobId) = true <;> simp [hh]
  exact ⟨⟨⟨hwfm, queueWF_map hwfd hfid⟩, hbm, queueBounds_map hcnt⟩,
    monoList_refl hwfm.2, monoList_map hfid hmono hwfd.2⟩


theorem monoList_map_map {l : List StoredJob} {f g : StoredJob → StoredJob}
    (hf : ∀ j, (f j).id = j.id) (hg : ∀ j, (g j).id = j.id)
    (hcount : ∀ j ∈ l, j.data.attemptCount ≤ (g (f j)).data.attemptCount)
    (hnd : (l.map StoredJob.id).Nodup) : monoList l ((l.map f).map g) := by
  intro j hj j' hj' hid
  rcases List.mem_map.mp hj' with ⟨j1, hj1, rfl⟩
  rcases List.mem_map.mp hj1 with ⟨j0, hj0, rfl⟩
  have : j = j0 := mem_id_unique hnd hj hj0 (by rw [hid, hg, hf])
  rw [this]
  exact hcount j0 hj0

theorem queueBounds_map_map {q : BullQueue} {f g : StoredJob → StoredJob}
    (hok : ∀ j ∈ q.jobs, 1 ≤ (g (f j)).data.attemptCount ∧
      (g (f j)).data.attemptCount ≤ MAX_RETRY_ATTEMPTS) :
    queueBounds { q with jobs := (q.jobs.map f).map g } := by
  intro j hj
  rcases List.mem_map.mp hj with ⟨j1, hj1, rfl⟩
  rcases List.mem_map.mp hj1 with ⟨j0, hj0, rfl⟩
  exact hok j0 hj0

theorem inv_runAttempt {st : Store} (h : storeInv st)
    (io : MessagePayload → Option String) (now jobId : Nat) :
    storeInv (runAttempt io now jobId st).store ∧
      attemptCountMono st (runAttempt io now jobId st).store := by
  obtain ⟨⟨hwfm, hwfd⟩, hbm, hbd⟩ := h
  have hfid : ∀ (s : JobState) (j : StoredJob),
      (if (j.id == jobId) = true
        then { j with state := s, attemptsMade := j.attemptsMade + 1 }
        else j).id = j.id := by
    intro s j
    by_cases hh : (j.id == jobId) = true <;> simp [hh]
  have hfcnt : ∀ (s : JobState) (j : StoredJob),
      (if (j.id == jobId) = true
        then { j with state := s, attemptsMade := j.attemptsMade + 1 }
        else j).data.attemptCount = j.data.attemptCount := by
    intro s j
    by_cases hh : (j.id == jobId) = true <;> simp [hh]
  cases hj : st.messageQueue.getJob jobId with
  | none =>
    rw [runAttempt_none hj]
    exact ⟨⟨⟨hwfm, hwfd⟩, hbm, hbd⟩, monoList_refl hwfm.2, monoList_refl hwfd.2⟩
  | some job =>
    obtain ⟨hjm, hjid⟩ := getJob_mem_and_id hj
    have hjb := hbm job hjm
    cases hfd : factoryDeliver io job.data.message with
    | none =>
      rw [runAttempt_success hj hfd]
      refine ⟨⟨⟨queueWF_map hwfm (hfid JobState.completed), hwfd⟩,
        queueBounds_map ?_, hbd⟩,
        monoList_map (hfid JobState.completed)
          (fun j hjm2 => by rw [hfcnt]) hwfm.2,
        monoList_refl hwfd.2⟩
      intro j hjm2
      rw [hfcnt]
      exact hbm j hjm2
    | some e =>
      by_cases hk : MAX_RETRY_ATTEMPTS ≤ job.data.attemptCount
      · rw [runAttempt_max_fail hj hfd hk]
        refine ⟨⟨⟨queueWF_map hwfm (hfid JobState.completed),
          queueWF_addJob hwfd _ _ _ _⟩,
          queueBounds_map ?_,
          queueBounds_addJob hbd (by simpa [deadLetterData] using hjb) _ _ _⟩,
          monoList_map (hfid JobState.completed)
            (fun j hjm2 => by rw [hfcnt]) hwfm.2,
          monoList_append_fresh hwfd.1 rfl hwfd.2⟩
        intro j hjm2
        rw [hfcnt]
        exact hbm j hjm2
      · have hklt : job.data.attemptCount < MAX_RETRY_ATTEMPTS := by omega
        rw [runAttempt_retry_fail hj hfd hklt]
        have huid : ∀ j : StoredJob,
            (if (j.id == jobId) = true
              then { j with data := scheduleRetryData now job.data (jsErrorMessage e) }
              else j).id = j.id := by
          intro j
          by_cases hh : (j.id == jobId) = true <;> simp [hh]
        have hucnt : ∀ j ∈ st.messageQueue.jobs,
            j.data.attemptCount ≤
              (if (j.id == jobId) = true
                then { j with data := scheduleRetryData now job.data (jsErrorMessage e) }
                else j).data.attemptCount ∧
            1 ≤ (if (j.id == jobId) = true
                then { j with data := scheduleRetryData now job.data (jsErrorMessage e) }
                else j).data.attemptCount ∧
            (if (j.id == jobId) = true
                then { j with data := scheduleRetryData now job.data (jsErrorMessage e) }
                else j).data.attemptCount ≤ MAX_RETRY_ATTEMPTS := by
          intro j hjm2
          by_cases hh : (j.id == jobId) = true
          · have hjeq : j = job := mem_id_unique hwfm.2 hjm2 hjm
              (by rw [hjid]; simpa using hh)
            subst hjeq
            simp only [hh, if_pos, scheduleRetryData]
            refine ⟨by omega, by omega, by omega⟩
          · simp only [if_neg hh]
            exact ⟨Nat.le_refl _, (hbm j hjm2).1, (hbm j hjm2).2⟩
        refine ⟨⟨⟨queueWF_map (queueWF_map hwfm huid) ?_, hwfd⟩,
          queueBounds_map_map ?_, hbd⟩,
          monoList_map_map huid ?_ ?_ hwfm.2,
          monoList_refl hwfd.2⟩
        · intro j
          exact hfid _ j
        · intro j hjm2
          rw [hfcnt]
          exact ⟨(hucnt j hjm2).2.1, (hucnt j hjm2).2.2⟩
        · intro j
          exact hfid _ j
        · intro j hjm2
          rw [hfcnt]
          exact (hucnt j hjm2).1


theorem inv_requeue {now jobId : Nat} {st st' : Store} {ev : List StoreEvent}
    (h : storeInv st)
    (hok : requeueFromDeadLetter now jobId st = Except.ok (st', ev)) :
    storeInv st' ∧ attemptCountMono st st' := by
  obtain ⟨⟨hwfm, hwfd⟩, hbm, hbd⟩ := h
  cases hd : st.deadLetterQueue.getJob jobId with
  | some j =>
    rw [requeue_eq_dlq_some hd] at hok
    injection hok with h2
    injection h2 with h3 h4
    rw [← h3]
    refine ⟨⟨⟨queueWF_addJob hwfm _ _ _ _, queueWF_filter hwfd _⟩,
      queueBounds_addJob hbm (by simp [MAX_RETRY_ATTEMPTS]) _ _ _,
      queueBounds_filter hbd _⟩,
      monoList_append_fresh hwfm.1 rfl hwfm.2,
      monoList_shrink (monoList_refl hwfd.2) (fun j' hj' => List.mem_of_mem_filter hj')⟩
  | none =>
    cases hm : st.messageQueue.getJob jobId with
    | some j =>
      by_cases hs : j.state = JobState.failed
      · rw [requeue_eq_main_failed hd hm hs] at hok
        injection hok with h2
        injection h2 with h3 h4
        rw [← h3]
        refine ⟨⟨⟨queueWF_filter (queueWF_addJob hwfm _ _ _ _) _, hwfd⟩,
          queueBounds_filter
            (queueBounds_addJob hbm (by simp [MAX_RETRY_ATTEMPTS]) _ _ _) _,
          hbd⟩,
          monoList_shrink (monoList_append_fresh hwfm.1 rfl hwfm.2)
            (fun j' hj' => List.mem_of_mem_filter hj'),
          monoList_refl hwfd.2⟩
      · rw [requeue_eq_main_notfailed hd hm hs] at hok
        exact absurd hok (by simp)
    | none =>
      rw [requeue_eq_absent hd hm] at hok
      exact absurd hok (by simp)

theorem inv_removeJob {jobId : Nat} {st st' : Store}
    (h : storeInv st) (hok : removeJob jobId st = Except.ok st') :
    storeInv st' ∧ attemptCountMono st st' := by
  obtain ⟨⟨hwfm, hwfd⟩, hbm, hbd⟩ := h
  cases hm : st.messageQueue.getJob jobId with
  | some j =>
    have h3 : { st with messageQueue := st.messageQueue.removeJob jobId } = st' := by
      simpa [removeJob, hm] using hok
    rw [← h3]
    exact ⟨⟨⟨queueWF_filter hwfm _, hwfd⟩, queueBounds_filter hbm _, hbd⟩,
      monoList_shrink (monoList_refl hwfm.2) (fun j' hj' => List.mem_of_mem_filter hj'),
      monoList_refl hwfd.2⟩
  | none =>
    have h3 : st = st' := by
      simpa [removeJob, hm] using hok
    rw [← h3]
    exact ⟨⟨⟨hwfm, hwfd⟩, hbm, hbd⟩, monoList_refl hwfm.2, monoList_refl hwfd.2⟩

theorem step_storeInv_mono {st st' : Store} (h : storeInv st) (hs : Step st st') :
    storeInv st' ∧ attemptCountMono st st' := by
  cases hs with
  | addMsg now m st => exact inv_addMessage h now m
  | attempt io now jobId st => exact inv_runAttempt h io now jobId
  | deadLetterRun jobId st => exact inv_deadLetterRun h jobId
  | requeue now jobId st st2 ev hok => exact inv_requeue h hok
  | remove jobId st st2 hok => exact inv_removeJob h hok

theorem storeInv_empty : storeInv emptyStore := by
  refine ⟨⟨?_, ?_⟩, ?_, ?_⟩ <;> simp [emptyStore, queueWF, queueBounds]

theorem reachable_storeInv {st : Store} (h : Reachable st) : storeInv st := by
  induction h with
  | init => exact storeInv_empty
  | step hr hs ih => exact (step_storeInv_mono ih hs).1


/-- **C8** (confirmed): for every reachable store, `attempt_count` starts at 1
on first enqueue, satisfies `1 ≤ attempt_count ≤ MAX_ATTEMPTS` at all times in
both queues, never decreases for a persisting job instance across any
transition, and a failure arriving at `attempt_count = MAX_ATTEMPTS` triggers
the dead-letter decision rather than a further increment. -/
theorem attemptCount_invariant (st st' : Store) (h : Reachable st)
    (hstep : Step st st') :
    (∀ (now : Nat) (m : MessagePayload) (st0 : Store),
      ((addMessage now m st0).1).data.attemptCount = 1) ∧
    attemptCountBounds st ∧
    attemptCountMono st st' ∧
    (∀ (d : JobData) (e : String), d.attemptCount = MAX_RETRY_ATTEMPTS →
      processDecision (some e) d =
        ProcessAction.moveToDeadLetter (jsErrorMessage e)) := by
  refine ⟨fun _ _ _ => rfl, (reachable_storeInv h).2,
    (step_storeInv_mono (reachable_storeInv h) hstep).2, ?_⟩
  intro d e hd
  exact processDecision_fail_max (by omega)

/-- Witness for `attemptCount_invariant`: the submission step out of the empty
store. -/
theorem attemptCount_invariant_witness :
    (∀ (now : Nat) (m : MessagePayload) (st0 : Store),
      ((addMessage now m st0).1).data.attemptCount = 1) ∧
    attemptCountBounds emptyStore ∧
    attemptCountMono emptyStore (addMessage 0 msgA emptyStore).2 ∧
    (∀ (d : JobData) (e : String), d.attemptCount = MAX_RETRY_ATTEMPTS →
      processDecision (some e) d =
        ProcessAction.moveToDeadLetter (jsErrorMessage e)) :=
  attemptCount_invariant emptyStore (addMessage 0 msgA emptyStore).2
    Reachable.init (Step.addMsg 0 msgA emptyStore)

end QueueRetry
